import Mathlib

/-!
Verification development for the CS2 chat translator
(`bin/cs2-chat-translator.js`): a shallow embedding of the chat-event
parsing, command dispatch, fuzzy language lookup and translation
resolution pipeline, together with theorems settling the specification
claims about it.

Conventions of the embedding:
* JavaScript strings are modelled as Lean `String` (lists of Unicode
  code points; the source never splits surrogate pairs).
* The external translation service (`google-translate-api-x`) is an
  oracle parameter `TransReq → Option ExtRes`; `none` models a call
  that throws.
* The external fuzzy scorer (`fuzzball`'s `ratio`, 0–100 scale) is an
  abstract parameter `fuzz : String → String → Nat`.
* Regular-expression tests from the source are compiled by hand into
  decidable character-list matchers; each matcher's doc comment names
  the regex it implements.
-/

/-- Character class of JavaScript's `\s` (and of `String.prototype.trim`):
tab, LF, VT, FF, CR, space, NBSP, and the Unicode space separators
recognised by ECMAScript. -/
def isJsWs (c : Char) : Bool :=
  c == ' ' || c == '\t' || c == '\n' || c.toNat == 0x0B || c.toNat == 0x0C ||
  c == '\r' || c.toNat == 0xA0 || c.toNat == 0x1680 ||
  (0x2000 ≤ c.toNat && c.toNat ≤ 0x200A) ||
  c.toNat == 0x2028 || c.toNat == 0x2029 || c.toNat == 0x202F ||
  c.toNat == 0x205F || c.toNat == 0x3000 || c.toNat == 0xFEFF

/-- Character class of JavaScript's `\w`: `[A-Za-z0-9_]`. -/
def isWordChar (c : Char) : Bool :=
  ('a' ≤ c && c ≤ 'z') || ('A' ≤ c && c ≤ 'Z') || ('0' ≤ c && c ≤ '9') || c == '_'

/-- ECMAScript line terminators (the characters `.` does not match). -/
def isLineTerm (c : Char) : Bool :=
  c == '\n' || c == '\r' || c.toNat == 0x2028 || c.toNat == 0x2029

/-- JavaScript `String.prototype.trim`: drop `\s` characters from both ends. -/
def jsTrim (s : String) : String :=
  ⟨((s.data.dropWhile isJsWs).reverse.dropWhile isJsWs).reverse⟩

/-- `String.prototype.toLowerCase`, restricted to the ASCII range (all
catalog data and command keywords in the source are ASCII). -/
def jsToLower (s : String) : String :=
  ⟨s.data.map Char.toLower⟩

/-- `String.prototype.toUpperCase`, restricted to the ASCII range. -/
def jsToUpper (s : String) : String :=
  ⟨s.data.map Char.toUpper⟩

/-- Auxiliary for JavaScript `String.prototype.split(" ")`: cut the
character list at every single space character. -/
def jsSplitSpaceAux : List Char → List Char → List String
  | [], acc => [⟨acc.reverse⟩]
  | c :: rest, acc =>
    if c == ' ' then ⟨acc.reverse⟩ :: jsSplitSpaceAux rest []
    else jsSplitSpaceAux rest (c :: acc)

/-- JavaScript `message.split(" ")` (split on the single character U+0020,
keeping empty segments; `"".split(" ")` is `[""]`). -/
def jsSplitSpace (s : String) : List String :=
  jsSplitSpaceAux s.data []

/-- Character class of `[a-z_]` under the `/i` flag: `[A-Za-z_]`. -/
def isTmClassChar (c : Char) : Bool :=
  ('a' ≤ c && c ≤ 'z') || ('A' ≤ c && c ≤ 'Z') || c == '_'

/-- Test of `/^_tl\b/i` (line 550 and the classifiers at lines 592/645):
the message starts with `_tl` (case-insensitive) followed by a word
boundary, i.e. end of string or a non-`\w` character. -/
def tlRe (s : String) : Bool :=
  match s.data with
  | c0 :: c1 :: c2 :: rest =>
    c0 == '_' && c1.toLower == 't' && c2.toLower == 'l' &&
    (match rest with
     | [] => true
     | c :: _ => !(isWordChar c))
  | _ => false

/-- Test of `/^tm_[a-z_]{2,5}\b/i` (line 520 and the classifiers):
`tm_` (case-insensitive) followed by 2–5 characters of `[a-z_]`
(case-insensitive) and a word boundary.  Because `[a-zA-Z_] ⊆ \w`,
the quantifier is forced to consume the whole maximal `[a-zA-Z_]` run,
whose length must lie in `[2,5]` with the next character (if any)
outside `\w`. -/
def tmRe (s : String) : Bool :=
  match s.data with
  | c0 :: c1 :: c2 :: rest =>
    c0.toLower == 't' && c1.toLower == 'm' && c2 == '_' &&
    (let r := (rest.takeWhile isTmClassChar).length
     decide (2 ≤ r) && decide (r ≤ 5) &&
     (match rest.drop r with
      | [] => true
      | c :: _ => !(isWordChar c)))
  | _ => false

/-- Test of `/^code[_\s]/i` (the classifiers at lines 592/645):
`code` (case-insensitive) followed by one `_` or whitespace character. -/
def codeRe (s : String) : Bool :=
  match s.data with
  | c0 :: c1 :: c2 :: c3 :: c4 :: _ =>
    c0.toLower == 'c' && c1.toLower == 'o' && c2.toLower == 'd' &&
    c3.toLower == 'e' && (c4 == '_' || isJsWs c4)
  | _ => false

/-- The capture group of `message.match(/^code[_\s]+(.+)$/i)` (line 484).
The greedy separator run backtracks by exactly one character when
nothing follows it, so: no separator → no match; a non-empty remainder
after the maximal `[_\s]` run → that remainder; an all-separator tail of
length ≥ 2 → the last separator character; otherwise no match. -/
def codeCapture (s : String) : Option String :=
  match s.data with
  | c0 :: c1 :: c2 :: c3 :: rest =>
    if c0.toLower == 'c' && c1.toLower == 'o' && c2.toLower == 'd' &&
       c3.toLower == 'e' then
      let sep := rest.takeWhile (fun c => c == '_' || isJsWs c)
      let after := rest.drop sep.length
      if sep.length == 0 then none
      else if !after.isEmpty then some ⟨after⟩
      else if decide (2 ≤ sep.length) then
        match sep.getLast? with
        | some c => some ⟨[c]⟩
        | none => none
      else none
    else none
  | _ => none

/-- Test of `/^[.\s]+$/` (lines 594 and 646): a non-empty message made
solely of periods and whitespace. -/
def dotsOnly (s : String) : Bool :=
  !s.data.isEmpty && s.data.all (fun c => c == '.' || isJsWs c)

/-- The classifier regex of line 645,
`/^tm_[a-z_]{2,5}\b|^_tl\b|^code[_\s]/i`, guarding the
`lastForeignMsg` update. -/
def memoryCmdRe (s : String) : Bool :=
  tmRe s || tlRe s || codeRe s

/-- The skip regex of line 592, `/^(_tl\b|tm_[a-z_]{2,5}\b|code[_\s])/i`,
guarding auto-translation (same three alternatives, different order). -/
def autoSkipRe (s : String) : Bool :=
  tlRe s || tmRe s || codeRe s

example : tmRe "tm_de hello" = true := by decide
example : tmRe "tm_" = false := by decide
example : tmRe "tm_a" = false := by decide
example : tmRe "tm_ab" = true := by decide
example : tmRe "tm_abcdef" = false := by decide
example : tmRe "tm_ab1" = false := by decide
example : tmRe "tm_de,x hello" = true := by decide
example : tlRe "_tl" = true := by decide
example : tlRe "_tl de" = true := by decide
example : tlRe "_tlx" = false := by decide
example : codeRe "code_french" = true := by decide
example : codeRe "code french" = true := by decide
example : codeRe "code" = false := by decide
example : codeCapture "code_french" = some "french" := by decide
example : codeCapture "code_" = none := by decide
example : codeCapture "code__" = some "_" := by decide
example : codeCapture "code _" = some "_" := by decide
example : dotsOnly ". ." = true := by decide
example : dotsOnly "" = false := by decide
example : jsTrim "  hi  " = "hi" := by decide
example : jsSplitSpace "a  b" = ["a", "", "b"] := by decide

/-- The static `LANG_MAP` object (lines 263–287), in source order
(`Object.entries` preserves insertion order for these string keys). -/
def LANG_MAP : List (String × String) := [
  ("af", "Afrikaans"), ("sq", "Albanian"), ("am", "Amharic"), ("ar", "Arabic"),
  ("hy", "Armenian"), ("az", "Azerbaijani"), ("eu", "Basque"),
  ("be", "Belarusian"), ("bn", "Bengali"), ("bs", "Bosnian"),
  ("bg", "Bulgarian"), ("ca", "Catalan"), ("ceb", "Cebuano"),
  ("ny", "Chichewa"), ("zh", "Chinese"), ("zh_cn", "Chinese (Simplified)"),
  ("zh_tw", "Chinese (Traditional)"), ("co", "Corsican"), ("hr", "Croatian"),
  ("cs", "Czech"), ("da", "Danish"), ("nl", "Dutch"), ("en", "English"),
  ("eo", "Esperanto"), ("et", "Estonian"), ("tl", "Filipino"),
  ("fi", "Finnish"), ("fr", "French"), ("fy", "Frisian"), ("gl", "Galician"),
  ("ka", "Georgian"), ("de", "German"), ("el", "Greek"), ("gu", "Gujarati"),
  ("ht", "Haitian Creole"), ("ha", "Hausa"), ("haw", "Hawaiian"),
  ("he", "Hebrew"), ("hi", "Hindi"), ("hmn", "Hmong"), ("hu", "Hungarian"),
  ("is", "Icelandic"), ("ig", "Igbo"), ("id", "Indonesian"), ("ga", "Irish"),
  ("it", "Italian"), ("ja", "Japanese"), ("jw", "Javanese"),
  ("kn", "Kannada"), ("kk", "Kazakh"), ("km", "Khmer"), ("rw", "Kinyarwanda"),
  ("ko", "Korean"), ("ku", "Kurdish (Kurmanji)"), ("ky", "Kyrgyz"),
  ("lo", "Lao"), ("la", "Latin"), ("lv", "Latvian"), ("lt", "Lithuanian"),
  ("lb", "Luxembourgish"), ("mk", "Macedonian"), ("mg", "Malagasy"),
  ("ms", "Malay"), ("ml", "Malayalam"), ("mt", "Maltese"), ("mi", "Maori"),
  ("mr", "Marathi"), ("mn", "Mongolian"), ("my", "Myanmar (Burmese)"),
  ("ne", "Nepali"), ("no", "Norwegian"), ("or", "Odia (Oriya)"),
  ("ps", "Pashto"), ("fa", "Persian"), ("pl", "Polish"), ("pt", "Portuguese"),
  ("pa", "Punjabi"), ("ro", "Romanian"), ("ru", "Russian"), ("sm", "Samoan"),
  ("gd", "Scots Gaelic"), ("sr", "Serbian"), ("st", "Sesotho"),
  ("sn", "Shona"), ("sd", "Sindhi"), ("si", "Sinhala"), ("sk", "Slovak"),
  ("sl", "Slovenian"), ("so", "Somali"), ("es", "Spanish"),
  ("su", "Sundanese"), ("sw", "Swahili"), ("sv", "Swedish"), ("tg", "Tajik"),
  ("ta", "Tamil"), ("tt", "Tatar"), ("te", "Telugu"), ("th", "Thai"),
  ("tr", "Turkish"), ("tk", "Turkmen"), ("uk", "Ukrainian"), ("ur", "Urdu"),
  ("ug", "Uyghur"), ("uz", "Uzbek"), ("vi", "Vietnamese"), ("cy", "Welsh"),
  ("xh", "Xhosa"), ("yi", "Yiddish"), ("yo", "Yoruba"), ("zu", "Zulu")]

/-- `LANG_MAP[key]` as an association-list lookup. -/
def langMapLookup (key : String) : Option String :=
  (LANG_MAP.find? (fun kv => kv.1 == key)).map (fun kv => kv.2)

/-- `langName(iso)` (lines 347–350):
`LANG_MAP[key] || key.toUpperCase() || "UNKNOWN"` on the lowercased key. -/
def langName (iso : String) : String :=
  let key := jsToLower iso
  match langMapLookup key with
  | some name => name
  | none => if jsToUpper key == "" then "UNKNOWN" else jsToUpper key

example : langName "de" = "German" := by decide
example : langName "RU" = "Russian" := by decide
example : langName "xx" = "XX" := by decide
example : langName "" = "UNKNOWN" := by decide

/-- State machine for a JavaScript global replace of `/X+/g` by a single
space: each maximal run of characters satisfying `p` becomes one `' '`.
The flag records whether we are inside a run. -/
def collapseRunsAux (p : Char → Bool) : List Char → Bool → List Char
  | [], _ => []
  | c :: cs, inRun =>
    if p c then
      if inRun then collapseRunsAux p cs true
      else ' ' :: collapseRunsAux p cs true
    else c :: collapseRunsAux p cs false

/-- Global replace of every maximal run of `p`-characters by one space. -/
def collapseRuns (p : Char → Bool) (l : List Char) : List Char :=
  collapseRunsAux p l false

/-- `normalizeQueryLoose(s)` (lines 409–416): lowercase, collapse `[_\-]+`
runs to single spaces, replace each `(`/`)` by a space, collapse `\s+`
runs to single spaces, trim. -/
def normalizeQueryLoose (s : String) : String :=
  let l1 := (jsToLower s).data
  let l2 := collapseRuns (fun c => c == '_' || c == '-') l1
  let l3 := l2.map (fun c => if c == '(' || c == ')' then ' ' else c)
  let l4 := collapseRuns isJsWs l3
  jsTrim ⟨l4⟩

example : normalizeQueryLoose "  Chinese__(Simplified)-x " = "chinese simplified x" := by decide
example : normalizeQueryLoose "_" = "" := by decide
example : normalizeQueryLoose "" = "" := by decide

/-- One attempt of `/\s*\([^)]*\)\s*/` at the head of the list: skip
leading whitespace, require `(`, skip to the first `)`, consume it and
trailing whitespace; return the unmatched tail on success. -/
def matchParenTail (cs : List Char) : Option (List Char) :=
  match cs.dropWhile isJsWs with
  | '(' :: cs2 =>
    match cs2.dropWhile (fun c => !(c == ')')) with
    | ')' :: cs4 => some (cs4.dropWhile isJsWs)
    | _ => none
  | _ => none

/-- Fuel-indexed scan for the global replace of `/\s*\([^)]*\)\s*/g` by
the empty string: at each position, either consume a match or emit one
character and retry at the next position.  With `fuel ≥ length` the
fuel never runs out (every match consumes at least two characters). -/
def stripParensAux : Nat → List Char → List Char
  | 0, _ => []
  | _, [] => []
  | Nat.succ n, c :: cs =>
    match matchParenTail (c :: cs) with
    | some rest => stripParensAux n rest
    | none => c :: stripParensAux n cs

/-- `name.replace(/\s*\([^)]*\)\s*/g, "")` (line 425). -/
def stripParens (s : String) : String :=
  ⟨stripParensAux s.data.length s.data⟩

example : jsTrim (stripParens "Chinese (Simplified)") = "Chinese" := by decide
example : jsTrim (stripParens "Odia (Oriya)") = "Odia" := by decide
example : jsTrim (stripParens "Haitian Creole") = "Haitian Creole" := by decide

/-- A catalog entry produced by `buildLangCandidates` (lines 422–446). -/
structure Candidate where
  code : String
  name : String
  aliases : List String
deriving DecidableEq

/-- Insertion into a JavaScript `Set` materialised as a list: append the
element unless it is already present (insertion order preserved). -/
def insertSet (l : List String) (a : String) : List String :=
  if l.contains a then l else l ++ [a]

/-- `buildLangCandidates()` (lines 422–446): one candidate per
`LANG_MAP` entry, whose alias set contains the lowercased canonical
name, the name with parenthesised parts stripped, the code, and the
hand-written extra aliases for a few codes. -/
def buildLangCandidates : List Candidate :=
  LANG_MAP.map (fun kv =>
    let code := kv.1
    let base := kv.2
    let bare := jsTrim (stripParens kv.2)
    let a0 := [jsToLower base, jsToLower bare, jsToLower code].foldl insertSet []
    let a1 := if code == "zh_cn" then
        insertSet (insertSet a0 "simplified chinese") "chinese simplified" else a0
    let a2 := if code == "zh_tw" then
        insertSet (insertSet a1 "traditional chinese") "chinese traditional" else a1
    let a3 := if code == "ga" then insertSet a2 "irish gaelic" else a2
    let a4 := if code == "gd" then
        insertSet (insertSet a3 "scottish gaelic") "scots gaelic" else a3
    let a5 := if code == "jw" then insertSet a4 "javanese" else a4
    let a6 := if code == "my" then insertSet a5 "burmese" else a5
    let a7 := if code == "tl" then insertSet a6 "tagalog" else a6
    let a8 := if code == "pt" then
        insertSet (insertSet a7 "brazilian portuguese") "brasilianisch" else a7
    let a9 := if code == "he" then insertSet a8 "ivrit" else a8
    { code := code, name := base, aliases := a9 })

/-- The result record of `bestLangMatch` (`{ code, name, score }`). -/
structure LangMatch where
  code : String
  name : String
  score : Nat
deriving DecidableEq

/-- `Math.max(...)` over a list of scores (all alias lists are
non-empty, so the `-Infinity` base case of `Math.max` never shows). -/
def listMax (l : List Nat) : Nat := l.foldr max 0

/-- The per-candidate fuzzy score:
`Math.max(...c.aliases.map((a) => fuzz.ratio(q, a)))` (line 465). -/
def entryScore (fuzz : String → String → Nat) (q : String) (c : Candidate) : Nat :=
  listMax (c.aliases.map (fun a => fuzz q a))

/-- `bestLangMatch(query)` (lines 452–471), parameterised by the
external fuzzball scorer `fuzz`: empty normalized query → `null`;
first exact alias hit wins with score 100; otherwise a fold keeping the
strictly best per-candidate score, thresholded at 55. -/
def bestLangMatch (fuzz : String → String → Nat) (query : String) : Option LangMatch :=
  let q := normalizeQueryLoose query
  if q == "" then none
  else
    let candidates := buildLangCandidates
    match candidates.find? (fun c => c.aliases.any (fun a => a == q)) with
    | some c => some ⟨c.code, c.name, 100⟩
    | none =>
      let best := candidates.foldl (fun best c =>
        let score := entryScore fuzz q c
        match best with
        | none => some (⟨c.code, c.name, score⟩ : LangMatch)
        | some b => if b.score < score then some ⟨c.code, c.name, score⟩ else best) none
      match best with
      | some b => if decide (55 ≤ b.score) then some b else none
      | none => none

/-- The Language Resolver as worded by the specification (§4.4), for the
refinement proof of claim C5: empty normalized query → none; otherwise
the first catalog entry with an exact alias hit wins with top score;
otherwise the score of an entry is the maximum fuzzy score over its
aliases, the winner is the first entry in catalog order attaining the
maximum score across entries, and the result is `none` when that best
score is below 55. -/
def bestLangMatchSpec (fuzz : String → String → Nat) (query : String) : Option LangMatch :=
  let q := normalizeQueryLoose query
  if q == "" then none
  else
    let candidates := buildLangCandidates
    match candidates.find? (fun c => c.aliases.any (fun a => a == q)) with
    | some c => some ⟨c.code, c.name, 100⟩
    | none =>
      let m := listMax (candidates.map (entryScore fuzz q))
      match candidates.find? (fun c => entryScore fuzz q c == m) with
      | some c => if decide (55 ≤ m) then some ⟨c.code, c.name, m⟩ else none
      | none => none

example : bestLangMatch (fun _ _ => 0) "french" = some ⟨"fr", "French", 100⟩ := by decide
example : bestLangMatch (fun _ _ => 0) "Simplified_Chinese" = some ⟨"zh_cn", "Chinese (Simplified)", 100⟩ := by decide
example : bestLangMatch (fun _ _ => 0) "qqq" = none := by decide
example : bestLangMatch (fun _ _ => 60) "qqq" = some ⟨"af", "Afrikaans", 60⟩ := by decide

/-- `PREFER_RU_FOR_CYRILLIC` (line 303). -/
def PREFER_RU_FOR_CYRILLIC : Bool := true

/-- `AUTO_TRANSLATE` (line 294). -/
def AUTO_TRANSLATE : Bool := true

/-- `AUTO_TRANSLATE_TARGET` (line 295). -/
def AUTO_TRANSLATE_TARGET : String := "en"

/-- `CYRILLIC_REGEX.test(text)` with `CYRILLIC_REGEX = /[Ѐ-ӿ]/`
(line 304). -/
def hasCyrillic (s : String) : Bool :=
  s.data.any (fun c => 0x400 ≤ c.toNat && c.toNat ≤ 0x4FF)

/-- One request to the external translation capability: the text, the
target code (`to`), and the optional forced source code (`from`). -/
structure TransReq where
  text : String
  toLang : String
  fromLang : Option String
deriving DecidableEq

/-- The fields of a response of `google-translate-api-x` that the source
reads: `res.text` and `res.from?.language?.iso` (an absent iso is the
empty string, matching the `|| ""` default). -/
structure ExtRes where
  text : String
  iso : String
deriving DecidableEq

/-- The external translation capability: `none` models a call that
throws (network/API error). -/
def Oracle := TransReq → Option ExtRes

/-- What `smartTranslate` hands back to its callers: the translated
text, the detected source iso, and the `__forcedFrom` marker (set to
`"ru"` exactly when the Cyrillic override succeeded). -/
structure TransOut where
  text : String
  iso : String
  forcedFrom : Option String
deriving DecidableEq

/-- `smartTranslate(text, toLang)` (lines 364–387) with the
`PREFER_RU_FOR_CYRILLIC` flag generalised to a parameter, returning the
result together with the ordered list of calls made to the external
capability.  A failed first call yields the degraded stub
`{ text, from: { language: { iso: "unknown" } } }`; a failed second
(forced-`ru`) call silently keeps the first result. -/
def smartTranslateWith (preferRu : Bool) (oracle : Oracle)
    (text toLang : String) : TransOut × List TransReq :=
  let req1 : TransReq := ⟨text, toLang, none⟩
  match oracle req1 with
  | none => (⟨text, "unknown", none⟩, [req1])
  | some res =>
    let guess := jsToLower res.iso
    let shouldForceRu := preferRu && hasCyrillic text && !(guess == "ru")
    if shouldForceRu then
      let req2 : TransReq := ⟨text, toLang, some "ru"⟩
      match oracle req2 with
      | some forced => (⟨forced.text, forced.iso, some "ru"⟩, [req1, req2])
      | none => (⟨res.text, res.iso, none⟩, [req1, req2])
    else (⟨res.text, res.iso, none⟩, [req1])

/-- `smartTranslate` as shipped: the flag is the constant `true`. -/
def smartTranslate : Oracle → String → String → TransOut × List TransReq :=
  smartTranslateWith PREFER_RU_FOR_CYRILLIC

/-- The iso chain `(res.__forcedFrom || res.from?.language?.iso ||
"unknown").toLowerCase()` (lines 394 and 597). -/
def fromIsoOf (t : TransOut) : String :=
  let s1 := match t.forcedFrom with
            | some f => f
            | none => ""
  let s2 := if s1 == "" then t.iso else s1
  let s3 := if s2 == "" then "unknown" else s2
  jsToLower s3

/-- `originalLangReadable(res)` (lines 393–396). -/
def originalLangReadable (t : TransOut) : String :=
  langName (fromIsoOf t)

/-- The remembered last normal chat message,
`lastForeignMsg = { player, message, team }` (lines 510, 648). -/
structure LastMsg where
  player : String
  message : String
  team : String
deriving DecidableEq

/-- One call of `writeChatCfg({ message, team })`: a reply delivered to
the Outbound Sink (line 323). -/
structure ChatOut where
  message : String
  team : Bool
deriving DecidableEq

/-- The console line printed by `autoTranslateToConsole` (lines
601–606), kept structurally. -/
structure ConsoleLine where
  team : String
  sender : String
  fromIso : String
  text : String
deriving DecidableEq

/-- The observable effects of handling one event: Outbound Sink writes
in order, external translation calls in order, and the optional
auto-translation console line. -/
structure Effects where
  chatOuts : List ChatOut := []
  reqs : List TransReq := []
  consoleTrans : Option ConsoleLine := none
deriving DecidableEq

/-- Which of the three command handlers returned `true` for an event. -/
inductive Handler
  | tl
  | code
  | tm
deriving DecidableEq

/-- `handleTl({ isTeam, message })` (lines 549–576): guard `/^_tl\b/i`;
with empty memory reply a fixed notice; otherwise translate the
remembered message to `parts[1]?.toLowerCase() || "en"`. -/
def handleTl (oracle : Oracle) (isTeam : Bool) (message : String)
    (lastForeignMsg : Option LastMsg) : Bool × Effects :=
  if !(tlRe message) then (false, {})
  else
    match lastForeignMsg with
    | none => (true, { chatOuts := [⟨"No recent message to translate.", isTeam⟩] })
    | some last =>
      let parts := jsSplitSpace message
      let target := match parts.drop 1 with
        | [] => "en"
        | t :: _ => if jsToLower t == "" then "en" else jsToLower t
      let p := smartTranslate oracle last.message target
      let translated := p.1.text
      let originalLang := originalLangReadable p.1
      let output := last.player ++ " said - " ++ translated ++
        " - (from " ++ originalLang ++ ")"
      (true, { chatOuts := [⟨output, isTeam⟩], reqs := p.2 })

/-- `handleCodeLang({ isTeam, message })` (lines 483–503), parameterised
by the fuzzball scorer: guard `/^code[_\s]+(.+)$/i`; an empty trimmed
query is a silent no-op; otherwise reply with the match hint or the
fixed "no close match" hint. -/
def handleCodeLang (fuzz : String → String → Nat) (isTeam : Bool)
    (message : String) : Bool × Effects :=
  match codeCapture message with
  | none => (false, {})
  | some cap =>
    let query := jsTrim cap
    if query == "" then (true, {})
    else
      match bestLangMatch fuzz query with
      | some m =>
        let reply := "For " ++ m.name ++ " use tm_" ++ m.code
        (true, { chatOuts := [⟨reply, isTeam⟩] })
      | none =>
        let reply := "No close language match for \"" ++ query ++
          "\". Try tm_en, tm_de, tm_fr, tm_es, tm_ru, tm_pt..."
        (true, { chatOuts := [⟨reply, isTeam⟩] })

/-- `cmd` of `handleTm`: the first segment of `message.split(" ")`
(line 522). -/
def tmCmd (message : String) : String :=
  (jsSplitSpace message).headD ""

/-- `lang = cmd.slice(3).toLowerCase()` (line 523): the entire first
space-delimited token with its leading three characters removed,
lowercased. -/
def tmLang (message : String) : String :=
  jsToLower ((tmCmd message).drop 3)

/-- `text = rest.join(" ").trim()` (line 524): everything after the
first space character, trimmed (empty when there is no space). -/
def tmText (message : String) : String :=
  jsTrim (String.intercalate " " ((jsSplitSpace message).drop 1))

/-- `handleTm({ isTeam, sender, message })` (lines 519–539): guard
`/^tm_[a-z_]{2,5}\b/i`; empty text is a silent no-op; otherwise
translate the text to the sliced language token and reply. -/
def handleTm (oracle : Oracle) (isTeam : Bool) (sender message : String) :
    Bool × Effects :=
  if !(tmRe message) then (false, {})
  else
    let lang := tmLang message
    let text := tmText message
    if text == "" then (true, {})
    else
      let p := smartTranslate oracle text lang
      let output := sender ++ " said - " ++ p.1.text ++ " - (from " ++
        originalLangReadable p.1 ++ ")"
      (true, { chatOuts := [⟨output, isTeam⟩], reqs := p.2 })

/-- `autoTranslateToConsole({ team, sender, message })` (lines 587–608):
skip empty, command-shaped and period/whitespace-only messages, then
translate to the default target and print a console line unless the
detected (or forced) source equals the target. -/
def autoTranslateToConsole (oracle : Oracle) (team sender message : String) :
    Effects :=
  if !AUTO_TRANSLATE then {}
  else if message == "" then {}
  else if autoSkipRe message then {}
  else if dotsOnly message then {}
  else
    let p := smartTranslate oracle message AUTO_TRANSLATE_TARGET
    let fromIso := fromIsoOf p.1
    if !(fromIso == jsToLower AUTO_TRANSLATE_TARGET) then
      { reqs := p.2, consoleTrans := some ⟨team, sender, fromIso, p.1.text⟩ }
    else
      { reqs := p.2 }

/-- The fixed-priority handler chain of `handleLine` (lines 656–660):
`_tl`, then `code`, then `tm_`, then auto-translate; the first handler
returning `true` consumes the event. -/
def dispatch (oracle : Oracle) (fuzz : String → String → Nat)
    (isTeam : Bool) (team sender message : String) (st : Option LastMsg) :
    Effects × Option Handler :=
  let r1 := handleTl oracle isTeam message st
  if r1.1 then (r1.2, some Handler.tl)
  else
    let r2 := handleCodeLang fuzz isTeam message
    if r2.1 then (r2.2, some Handler.code)
    else
      let r3 := handleTm oracle isTeam sender message
      if r3.1 then (r3.2, some Handler.tm)
      else (autoTranslateToConsole oracle team sender message, none)

/-- The body of `handleLine` after a successful parse (lines 629–661):
trim message and sender, compute the team flag, update
`lastForeignMsg` iff the message matches no command pattern and is not
period/whitespace-only, then run the handler chain. -/
def handleParsed (oracle : Oracle) (fuzz : String → String → Nat)
    (team player messageRaw : String) (st : Option LastMsg) :
    Option LastMsg × Effects × Option Handler :=
  let message := jsTrim messageRaw
  let sender := jsTrim player
  let isTeam := team == "CT" || team == "T"
  let st' := if !(memoryCmdRe message) && !(dotsOnly message)
             then some ⟨sender, message, team⟩ else st
  let de := dispatch oracle fuzz isTeam team sender message st'
  (st', de.1, de.2)

/-- The channel alternative `(CT|T|ALL)` followed by the literal `]`,
tried left to right at the position just after `[`. -/
def parseChanAt : List Char → Option (String × List Char)
  | 'C' :: 'T' :: ']' :: rest => some ("CT", rest)
  | 'T' :: ']' :: rest => some ("T", rest)
  | 'A' :: 'L' :: 'L' :: ']' :: rest => some ("ALL", rest)
  | _ => none

/-- The tail `\s+([^:]+):\s(.+)` of the chat-line regex, matched after
the channel: a non-empty whitespace run, a non-empty colon-free sender
group ending at the first colon (the greedy `\s+` backtracks at most to
leave one character for the group), one whitespace character, and a
non-empty remainder of non-line-terminator characters. -/
def parseRest (cs : List Char) : Option (String × String) :=
  let wsLen := (cs.takeWhile isJsWs).length
  if wsLen == 0 then none
  else
    match cs.findIdx? (fun c => c == ':') with
    | none => none
    | some p =>
      if decide (p < 2) then none
      else
        let j := min wsLen (p - 1)
        let sender := (cs.drop j).take (p - j)
        match cs.drop (p + 1) with
        | [] => none
        | c :: rest2 =>
          if isJsWs c then
            let msg := rest2.takeWhile (fun d => !(isLineTerm d))
            if msg.isEmpty then none else some (⟨sender⟩, ⟨msg⟩)
          else none

/-- Leftmost-match scan of `line.match(/\[(CT|T|ALL)\]\s+([^:]+):\s(.+)/)`
(line 626): try a full match at every `[`, advancing one character on
failure. -/
def matchFrom : List Char → Option (String × String × String)
  | [] => none
  | c :: rest =>
    if c == '[' then
      match parseChanAt rest with
      | some (team, rest2) =>
        match parseRest rest2 with
        | some (player, msg) => some (team, player, msg)
        | none => matchFrom rest
      | none => matchFrom rest
    else matchFrom rest

/-- The Chat Event Parser: the capture groups (channel, sender-raw,
message-raw) of the chat-line regex, or `none` for a non-chat line. -/
def parseLine (line : String) : Option (String × String × String) :=
  matchFrom line.data

/-- `handleLine(line)` (lines 625–661): parse, then classify and
dispatch; a non-matching line is discarded with no effects. -/
def handleLine (oracle : Oracle) (fuzz : String → String → Nat)
    (line : String) (st : Option LastMsg) :
    Option LastMsg × Effects × Option Handler :=
  match parseLine line with
  | none => (st, {}, none)
  | some (team, player, messageRaw) =>
    handleParsed oracle fuzz team player messageRaw st

/-- A concrete always-failing oracle, for witnesses. -/
def oracle0 : Oracle := fun _ => none

/-- A concrete constant fuzzball scorer, for witnesses. -/
def fuzz0 : String → String → Nat := fun _ _ => 0

example : parseLine "10/26 18:49:20  [CT] Player: hello" =
    some ("CT", "Player", "hello") := by decide
example : parseLine "[ALL] Some Guy: tm_de hello" =
    some ("ALL", "Some Guy", "tm_de hello") := by decide
example : parseLine "no chat here" = none := by decide
example : parseLine "[CT] Bob:   " = some ("CT", "Bob", "  ") := by decide
example : (handleLine oracle0 fuzz0 "[CT] Alice: privet" none).1 =
    some ⟨"Alice", "privet", "CT"⟩ := by decide
example : (handleLine oracle0 fuzz0 "[T] Dan: code_french" none).2.1.chatOuts =
    [⟨"For French use tm_fr", true⟩] := by decide
example : (handleLine oracle0 fuzz0 "[ALL] Eve: _tl" none).2.1.chatOuts =
    [⟨"No recent message to translate.", false⟩] := by decide
example : (handleLine oracle0 fuzz0 "[ALL] Eve: ..." none).1 = none := by decide

/-- C1: for every accepted chat event, `lastForeignMsg` becomes exactly
`{sender, message, channel}` of the event if and only if its trimmed
message matches none of the command patterns `^tm_[a-z_]{2,5}\b`,
`^_tl\b`, `^code[_\s]` (case-insensitively) and is not a non-empty
string of whitespace/period characters; in every other case (in
particular for every command-matching message) the memory is left
unchanged. -/
theorem C1_lastMessageMemory_update (oracle : Oracle)
    (fuzz : String → String → Nat) (team player messageRaw : String)
    (st : Option LastMsg) :
    (handleParsed oracle fuzz team player messageRaw st).1 =
      (if !(tmRe (jsTrim messageRaw) || tlRe (jsTrim messageRaw) ||
            codeRe (jsTrim messageRaw)) && !(dotsOnly (jsTrim messageRaw))
       then some ⟨jsTrim player, jsTrim messageRaw, team⟩
       else st) := rfl

/-- C7 (code bug): an accepted event can carry a message that trims to
the empty string, and such an event does overwrite `lastForeignMsg`
(with an empty remembered message): on the raw line `"[CT] Bob:   "`
the parser accepts the event with raw message `"  "`, the trim yields
`""`, and the memory is overwritten with `{Bob, "", CT}`. -/
theorem C7_empty_message_overwrites_memory :
    parseLine "[CT] Bob:   " = some ("CT", "Bob", "  ") ∧
    jsTrim "  " = "" ∧
    (handleLine oracle0 fuzz0 "[CT] Bob:   " none).1 =
      some ⟨"Bob", "", "CT"⟩ := by decide

/-- C8 (counterexample): the bare string `"tm_"` matches none of the
command patterns of the classifier, so — contrary to the claim — it
counts as plain and does update `lastForeignMsg`. -/
theorem C8_counterexample_tm_bare :
    memoryCmdRe "tm_" = false ∧
    (handleLine oracle0 fuzz0 "[ALL] Bob: tm_" none).1 =
      some ⟨"Bob", "tm_", "ALL"⟩ := by decide

/-- C8 (amended): a malformed command keyword updates
`lastForeignMsg` exactly when it fails all command patterns: the bare
string `"tm_"` (no language code) does not match
`^tm_[a-z_]{2,5}\b`, classifies as plain, and overwrites the memory
with the event itself, for every sender, channel and prior state. -/
theorem C8_amended_tm_bare_updates_memory (oracle : Oracle)
    (fuzz : String → String → Nat) (team player : String)
    (st : Option LastMsg) :
    memoryCmdRe "tm_" = false ∧
    (handleParsed oracle fuzz team player "tm_" st).1 =
      some ⟨jsTrim player, "tm_", team⟩ :=
  ⟨rfl, rfl⟩

/-- C9 (counterexample): a `code` command whose query normalizes to the
empty string can still send a reply: on `"[T] Dan: code__"` the capture
is `"_"`, which normalizes to `""`, yet the "no close language match"
hint is delivered to the Outbound Sink. -/
theorem C9_counterexample_code_underscore :
    codeRe "code__" = true ∧
    normalizeQueryLoose "_" = "" ∧
    (handleLine oracle0 fuzz0 "[T] Dan: code__" none).2.1.chatOuts =
      [⟨"No close language match for \"_\". Try tm_en, tm_de, tm_fr, tm_es, tm_ru, tm_pt...", true⟩] := by
  decide

/-- C9 (amended): the silent no-op happens exactly when nothing follows
the `code` separator: the message `"code_"` is recognized as a command
by the classifier, yet no handler matches it, no reply is sent, no
translation call is made, and no console line is printed; a `code`
command with a non-empty captured remainder always replies, even when
the remainder normalizes to the empty string. -/
theorem C9_amended_code_bare_noop (oracle : Oracle)
    (fuzz : String → String → Nat) (team player : String)
    (st : Option LastMsg) :
    codeRe "code_" = true ∧
    (handleParsed oracle fuzz team player "code_" st).2.1 = ({} : Effects) ∧
    (handleParsed oracle fuzz team player "code_" st).2.2 = none :=
  ⟨rfl, rfl, rfl⟩

/-- C3: if the first external translation call fails, `smartTranslate`
returns the degraded result — translated text equal to the input,
detected source `"unknown"`, no override — and makes no second call
(the request trace is the single failed request). -/
theorem C3_smartTranslate_first_failure (oracle : Oracle)
    (text toLang : String)
    (h : oracle ⟨text, toLang, none⟩ = none) :
    smartTranslate oracle text toLang =
      (⟨text, "unknown", none⟩, [⟨text, toLang, none⟩]) := by
  simp only [smartTranslate, smartTranslateWith, h]

/-- Witness for C3 at a concrete input and an always-failing oracle. -/
theorem C3_smartTranslate_first_failure_witness :
    smartTranslate oracle0 "hi" "de" =
      (⟨"hi", "unknown", none⟩, [⟨"hi", "de", none⟩]) :=
  C3_smartTranslate_first_failure oracle0 "hi" "de" rfl

/-- C4: after a successful first call, the resolver makes a second call
forcing source `"ru"` if and only if the flag is enabled, the text
contains a Cyrillic character (U+0400–U+04FF), and the detected source
is not `"ru"`; a failed second call keeps the first result unchanged,
and a successful one yields the forced result marked
`forcedFrom = "ru"`. -/
theorem C4_cyrillic_override (preferRu : Bool) (oracle : Oracle)
    (text toLang : String) (r : ExtRes)
    (h : oracle ⟨text, toLang, none⟩ = some r) :
    ((smartTranslateWith preferRu oracle text toLang).2 =
      (if preferRu && hasCyrillic text && !(jsToLower r.iso == "ru")
       then [⟨text, toLang, none⟩, ⟨text, toLang, some "ru"⟩]
       else [⟨text, toLang, none⟩])) ∧
    ((preferRu && hasCyrillic text && !(jsToLower r.iso == "ru")) = true →
      oracle ⟨text, toLang, some "ru"⟩ = none →
      (smartTranslateWith preferRu oracle text toLang).1 =
        ⟨r.text, r.iso, none⟩) ∧
    (∀ f : ExtRes,
      (preferRu && hasCyrillic text && !(jsToLower r.iso == "ru")) = true →
      oracle ⟨text, toLang, some "ru"⟩ = some f →
      (smartTranslateWith preferRu oracle text toLang).1 =
        ⟨f.text, f.iso, some "ru"⟩) ∧
    ((preferRu && hasCyrillic text && !(jsToLower r.iso == "ru")) = false →
      (smartTranslateWith preferRu oracle text toLang).1 =
        ⟨r.text, r.iso, none⟩) := by
  refine ⟨?_, ?_, ?_, ?_⟩
  · simp only [smartTranslateWith, h]
    by_cases hc : (preferRu && hasCyrillic text && !(jsToLower r.iso == "ru")) = true
    · simp only [hc, if_true]
      cases ho : oracle ⟨text, toLang, some "ru"⟩ <;> simp [ho]
    · simp only [Bool.not_eq_true] at hc
      simp [hc]
  · intro hc ho
    simp [smartTranslateWith, h, hc, ho]
  · intro f hc ho
    simp [smartTranslateWith, h, hc, ho]
  · intro hc
    simp [smartTranslateWith, h, hc]

/-- A concrete oracle whose auto-detection answers Bulgarian and whose
forced-`ru` call succeeds, for the C4 witness. -/
def oracle1 : Oracle := fun req =>
  match req.fromLang with
  | none => some ⟨"auto-text", "bg"⟩
  | some _ => some ⟨"forced-text", "ru"⟩

/-- Witness for C4: Cyrillic input detected as non-`ru` triggers the
successful forced second call and is marked overridden. -/
theorem C4_cyrillic_override_witness :
    (smartTranslateWith true oracle1 "привет" "de").1 =
      ⟨"forced-text", "ru", some "ru"⟩ :=
  (C4_cyrillic_override true oracle1 "привет" "de" ⟨"auto-text", "bg"⟩
    rfl).2.2.1 ⟨"forced-text", "ru"⟩ (by decide) rfl

/-- A message matching the `tm_` pattern starts with `t`/`T`, so it
cannot match the `_tl` pattern. -/
theorem tmRe_imp_tlRe_false {m : String} (h : tmRe m = true) :
    tlRe m = false := by
  unfold tmRe at h
  unfold tlRe
  cases hm : m.data with
  | nil => rfl
  | cons c0 t0 =>
    cases t0 with
    | nil => rfl
    | cons c1 t1 =>
      cases t1 with
      | nil => rfl
      | cons c2 rest =>
        rw [hm] at h
        simp only [Bool.and_eq_true] at h
        by_cases h0 : (c0 == '_') = true
        · exfalso
          have hc0 : c0 = '_' := eq_of_beq h0
          subst hc0
          exact absurd h.1.1.1 (by decide)
        · simp only [Bool.not_eq_true] at h0
          simp [h0]

/-- A message matching the `tm_` pattern starts with `t`/`T`, so the
`code` capture fails on it. -/
theorem tmRe_imp_codeCapture_none {m : String} (h : tmRe m = true) :
    codeCapture m = none := by
  unfold tmRe at h
  unfold codeCapture
  cases hm : m.data with
  | nil => rfl
  | cons c0 t0 =>
    cases t0 with
    | nil => rfl
    | cons c1 t1 =>
      cases t1 with
      | nil => rfl
      | cons c2 t2 =>
        rw [hm] at h
        simp only [Bool.and_eq_true] at h
        have hc0 : c0.toLower = 't' := eq_of_beq h.1.1.1
        cases t2 with
        | nil => rfl
        | cons c3 rest =>
          have : (c0.toLower == 'c') = false := by
            rw [hc0]; decide
          simp [this]

/-- A successful `code` capture implies the `code` classifier pattern
matches. -/
theorem codeCapture_some_imp_codeRe {m : String} {c : String}
    (h : codeCapture m = some c) : codeRe m = true := by
  unfold codeCapture at h
  unfold codeRe
  cases hm : m.data with
  | nil => rw [hm] at h; exact absurd h (by simp)
  | cons c0 t0 =>
    cases t0 with
    | nil => rw [hm] at h; exact absurd h (by simp)
    | cons c1 t1 =>
      cases t1 with
      | nil => rw [hm] at h; exact absurd h (by simp)
      | cons c2 t2 =>
        cases t2 with
        | nil => rw [hm] at h; exact absurd h (by simp)
        | cons c3 rest =>
          rw [hm] at h
          by_cases hg : (c0.toLower == 'c' && c1.toLower == 'o' &&
              c2.toLower == 'd' && c3.toLower == 'e') = true
          · cases rest with
            | nil => simp [hg] at h
            | cons r0 rest2 =>
              by_cases hf : (r0 == '_' || isJsWs r0) = true
              · simp [hg, hf]
              · simp only [Bool.not_eq_true] at hf
                simp [hg, List.takeWhile_cons, hf] at h
          · simp [hg] at h

/-- `handleTl` declines when the `_tl` pattern does not match. -/
theorem handleTl_declines (oracle : Oracle) (isTeam : Bool) (m : String)
    (last : Option LastMsg) (h : tlRe m = false) :
    handleTl oracle isTeam m last = (false, {}) := by
  simp [handleTl, h]

/-- `handleTl` handles every `_tl` message and always sends exactly one
reply. -/
theorem handleTl_replies (oracle : Oracle) (isTeam : Bool) (m : String)
    (last : Option LastMsg) (h : tlRe m = true) :
    (handleTl oracle isTeam m last).1 = true ∧
    (handleTl oracle isTeam m last).2.chatOuts.length = 1 := by
  cases last <;> simp [handleTl, h]

/-- `handleCodeLang` declines when the capture fails. -/
theorem handleCodeLang_declines (fuzz : String → String → Nat)
    (isTeam : Bool) (m : String) (h : codeCapture m = none) :
    handleCodeLang fuzz isTeam m = (false, {}) := by
  simp [handleCodeLang, h]

/-- `handleCodeLang` handles every captured `code` message, and sends
exactly one reply when the trimmed query is non-empty. -/
theorem handleCodeLang_replies (fuzz : String → String → Nat)
    (isTeam : Bool) (m : String) (c : String) (h : codeCapture m = some c)
    (hq : jsTrim c ≠ "") :
    (handleCodeLang fuzz isTeam m).1 = true ∧
    (handleCodeLang fuzz isTeam m).2.chatOuts.length = 1 := by
  have hq' : (jsTrim c == "") = false := by
    cases hb : jsTrim c == "" with
    | false => rfl
    | true => exact absurd (eq_of_beq hb) hq
  cases hbm : bestLangMatch fuzz (jsTrim c) <;>
    simp [handleCodeLang, h, hq', hbm]

/-- `handleTm` declines when the `tm_` pattern does not match. -/
theorem handleTm_declines (oracle : Oracle) (isTeam : Bool)
    (sender m : String) (h : tmRe m = false) :
    handleTm oracle isTeam sender m = (false, {}) := by
  simp [handleTm, h]

/-- `handleTm` handles every `tm_` message. -/
theorem handleTm_handles (oracle : Oracle) (isTeam : Bool)
    (sender m : String) (h : tmRe m = true) :
    (handleTm oracle isTeam sender m).1 = true := by
  simp only [handleTm, h, Bool.not_true, Bool.false_eq_true, if_false]
  split <;> rfl

/-- `handleTm` sends exactly one reply when the text is non-empty. -/
theorem handleTm_replies (oracle : Oracle) (isTeam : Bool)
    (sender m : String) (h : tmRe m = true) (ht : tmText m ≠ "") :
    (handleTm oracle isTeam sender m).2.chatOuts.length = 1 := by
  have ht' : (tmText m == "") = false := by
    cases hb : tmText m == "" with
    | false => rfl
    | true => exact absurd (eq_of_beq hb) ht
  simp [handleTm, h, ht']

/-- The console-only projection never writes to the Outbound Sink. -/
theorem autoTranslate_no_chat (oracle : Oracle) (team sender m : String) :
    (autoTranslateToConsole oracle team sender m).chatOuts = [] := by
  unfold autoTranslateToConsole
  split
  · rfl
  · split
    · rfl
    · split
      · rfl
      · split
        · rfl
        · by_cases hc : (!(fromIsoOf (smartTranslate oracle m
              AUTO_TRANSLATE_TARGET).1 == jsToLower AUTO_TRANSLATE_TARGET)) =
              true <;> simp [hc]

/-- `handleTl` writes at most one reply. -/
theorem handleTl_len_le (oracle : Oracle) (isTeam : Bool) (m : String)
    (last : Option LastMsg) :
    (handleTl oracle isTeam m last).2.chatOuts.length ≤ 1 := by
  unfold handleTl
  split
  · simp
  · split <;> simp

/-- `handleCodeLang` writes at most one reply. -/
theorem handleCodeLang_len_le (fuzz : String → String → Nat) (isTeam : Bool)
    (m : String) :
    (handleCodeLang fuzz isTeam m).2.chatOuts.length ≤ 1 := by
  unfold handleCodeLang
  split
  · simp
  · rename_i x cap heq
    by_cases hq : jsTrim cap = ""
    · simp [hq]
    · cases hbm : bestLangMatch fuzz (jsTrim cap) <;> simp [hq, hbm]

/-- `handleTm` writes at most one reply. -/
theorem handleTm_len_le (oracle : Oracle) (isTeam : Bool)
    (sender m : String) :
    (handleTm oracle isTeam sender m).2.chatOuts.length ≤ 1 := by
  unfold handleTm
  split
  · simp
  · by_cases ht : tmText m = ""
    · simp [ht]
    · simp [ht]

/-- The handler chain writes at most one reply per event. -/
theorem dispatch_chat_len (oracle : Oracle) (fuzz : String → String → Nat)
    (isTeam : Bool) (team sender m : String) (st : Option LastMsg) :
    (dispatch oracle fuzz isTeam team sender m st).1.chatOuts.length ≤ 1 := by
  simp only [dispatch]
  split
  · exact handleTl_len_le oracle isTeam m st
  · split
    · exact handleCodeLang_len_le fuzz isTeam m
    · split
      · exact handleTm_len_le oracle isTeam sender m
      · simp [autoTranslate_no_chat]

/-- On a message matching no command pattern the chain falls through to
the console-only projection. -/
theorem dispatch_plain (oracle : Oracle) (fuzz : String → String → Nat)
    (isTeam : Bool) (team sender m : String) (st : Option LastMsg)
    (h1 : tlRe m = false) (h2 : codeCapture m = none) (h3 : tmRe m = false) :
    dispatch oracle fuzz isTeam team sender m st =
      (autoTranslateToConsole oracle team sender m, none) := by
  simp only [dispatch, handleTl_declines oracle isTeam m st h1,
    handleCodeLang_declines fuzz isTeam m h2,
    handleTm_declines oracle isTeam sender m h3]
  rfl

/-- On a `_tl` message the chain is consumed by `handleTl`. -/
theorem dispatch_tl (oracle : Oracle) (fuzz : String → String → Nat)
    (isTeam : Bool) (team sender m : String) (st : Option LastMsg)
    (h : tlRe m = true) :
    dispatch oracle fuzz isTeam team sender m st =
      ((handleTl oracle isTeam m st).2, some Handler.tl) := by
  simp only [dispatch, (handleTl_replies oracle isTeam m st h).1, if_true]

/-- On a captured `code` message the chain is consumed by
`handleCodeLang`. -/
theorem dispatch_code (oracle : Oracle) (fuzz : String → String → Nat)
    (isTeam : Bool) (team sender m : String) (st : Option LastMsg)
    (h1 : tlRe m = false) (c : String) (h2 : codeCapture m = some c) :
    dispatch oracle fuzz isTeam team sender m st =
      ((handleCodeLang fuzz isTeam m).2, some Handler.code) := by
  have hc : (handleCodeLang fuzz isTeam m).1 = true := by
    unfold handleCodeLang
    rw [h2]
    by_cases hq : jsTrim c = ""
    · simp [hq]
    · cases hbm : bestLangMatch fuzz (jsTrim c) <;> simp [hq, hbm]
  simp only [dispatch, handleTl_declines oracle isTeam m st h1, hc, if_true]
  rfl

/-- On a `tm_` message that earlier handlers declined, the chain is
consumed by `handleTm`. -/
theorem dispatch_tm (oracle : Oracle) (fuzz : String → String → Nat)
    (isTeam : Bool) (team sender m : String) (st : Option LastMsg)
    (h1 : tlRe m = false) (h2 : codeCapture m = none) (h3 : tmRe m = true) :
    dispatch oracle fuzz isTeam team sender m st =
      ((handleTm oracle isTeam sender m).2, some Handler.tm) := by
  simp only [dispatch, handleTl_declines oracle isTeam m st h1,
    handleCodeLang_declines fuzz isTeam m h2,
    handleTm_handles oracle isTeam sender m h3, if_true]
  rfl

/-- The second component of `handleParsed` is the dispatch on trimmed
data and updated memory. -/
theorem handleParsed_snd (oracle : Oracle) (fuzz : String → String → Nat)
    (team player messageRaw : String) (st : Option LastMsg) :
    (handleParsed oracle fuzz team player messageRaw st).2 =
      dispatch oracle fuzz (team == "CT" || team == "T") team
        (jsTrim player) (jsTrim messageRaw)
        (if !(memoryCmdRe (jsTrim messageRaw)) &&
            !(dotsOnly (jsTrim messageRaw))
         then some ⟨jsTrim player, jsTrim messageRaw, team⟩ else st) := rfl

/-- C2 (counterexample): `"tm_de"` (a `tm_` command with empty text) is
classified as a command and consumed by `handleTm`, yet no reply is
delivered to the Outbound Sink — refuting "exactly one handler
executes its chat reply when the event is a command". -/
theorem C2_counterexample_command_no_reply :
    memoryCmdRe "tm_de" = true ∧
    (handleLine oracle0 fuzz0 "[CT] Bob: tm_de" none).2.2 =
      some Handler.tm ∧
    (handleLine oracle0 fuzz0 "[CT] Bob: tm_de" none).2.1.chatOuts = [] := by
  decide

/-- The recognized command no-ops: a `TranslateInline` with empty text,
a `code` command whose capture fails (nothing after the separator), or
a `code` command whose captured remainder trims to the empty string
(spec-side definition used by the amended claim C2). -/
def isNoopCommand (message : String) : Bool :=
  (tmRe message && (tmText message == "")) ||
  (codeRe message && (codeCapture message).isNone) ||
  (match codeCapture message with
   | some cap => jsTrim cap == ""
   | none => false)

/-- C2 (amended): per accepted event at most one handler consumes it
and at most one chat reply is written; an event matching no command
pattern (Plain) is consumed by no handler and never writes to the
Outbound Sink; and a command event that is not a recognized no-op
(`tm_` with empty text, or `code` with an empty/missing remainder)
writes exactly one reply. -/
theorem C2_amended_single_reply (oracle : Oracle)
    (fuzz : String → String → Nat) (team player messageRaw : String)
    (st : Option LastMsg) :
    ((handleParsed oracle fuzz team player messageRaw st).2.1.chatOuts.length ≤ 1) ∧
    (memoryCmdRe (jsTrim messageRaw) = false →
      (handleParsed oracle fuzz team player messageRaw st).2.1.chatOuts = [] ∧
      (handleParsed oracle fuzz team player messageRaw st).2.2 = none) ∧
    (memoryCmdRe (jsTrim messageRaw) = true →
      isNoopCommand (jsTrim messageRaw) = false →
      (handleParsed oracle fuzz team player messageRaw st).2.1.chatOuts.length = 1) := by
  have hps := handleParsed_snd oracle fuzz team player messageRaw st
  refine ⟨?_, ?_, ?_⟩
  · rw [hps]
    exact dispatch_chat_len _ _ _ _ _ _ _
  · intro hcmd
    have hsplit : (tmRe (jsTrim messageRaw) = false ∧
        tlRe (jsTrim messageRaw) = false) ∧
        codeRe (jsTrim messageRaw) = false := by
      simpa [memoryCmdRe, Bool.or_eq_false_iff] using hcmd
    obtain ⟨⟨htm, htl⟩, hcode⟩ := hsplit
    have hcap : codeCapture (jsTrim messageRaw) = none := by
      cases hcp : codeCapture (jsTrim messageRaw) with
      | none => rfl
      | some c =>
        exact absurd (codeCapture_some_imp_codeRe hcp) (by simp [hcode])
    rw [hps, dispatch_plain _ _ _ _ _ _ _ htl hcap htm]
    exact ⟨autoTranslate_no_chat _ _ _ _, rfl⟩
  · intro hcmd hnoop
    rw [hps]
    by_cases htl : tlRe (jsTrim messageRaw) = true
    · rw [dispatch_tl _ _ _ _ _ _ _ htl]
      exact (handleTl_replies _ _ _ _ htl).2
    · have htl' : tlRe (jsTrim messageRaw) = false := by
        cases hv : tlRe (jsTrim messageRaw) with
        | true => exact absurd hv htl
        | false => rfl
      cases hcp : codeCapture (jsTrim messageRaw) with
      | some c =>
        have hq : jsTrim c ≠ "" := by
          intro he
          apply absurd hnoop
          simp [isNoopCommand, hcp, he]
        rw [dispatch_code _ _ _ _ _ _ _ htl' c hcp]
        exact (handleCodeLang_replies _ _ _ c hcp hq).2
      | none =>
        have hcode : codeRe (jsTrim messageRaw) = false := by
          cases hv : codeRe (jsTrim messageRaw) with
          | false => rfl
          | true =>
            exact absurd hnoop (by simp [isNoopCommand, hcp, hv])
        have htm : tmRe (jsTrim messageRaw) = true := by
          cases hv : tmRe (jsTrim messageRaw) with
          | true => rfl
          | false =>
            unfold memoryCmdRe at hcmd
            rw [hv, htl', hcode] at hcmd
            exact absurd hcmd (by decide)
        have htext : tmText (jsTrim messageRaw) ≠ "" := by
          intro he
          apply absurd hnoop
          simp [isNoopCommand, htm, he]
        rw [dispatch_tm _ _ _ _ _ _ _ htl' hcp htm]
        exact handleTm_replies _ _ _ _ htm htext

/-- Witness for C2 (amended) at the `_tl` command with empty memory:
exactly one reply ("No recent message to translate."). -/
theorem C2_amended_single_reply_witness :
    (handleParsed oracle0 fuzz0 "CT" "Al" "_tl" none).2.1.chatOuts.length = 1 :=
  (C2_amended_single_reply oracle0 fuzz0 "CT" "Al" "_tl" none).2.2
    (by decide) (by decide)

/-- C6: for a Plain message that passes the console projection's guards
(non-empty, no command pattern, not periods/whitespace only), nothing
is ever written to the Outbound Sink; the console line is suppressed
exactly when the detected (or Cyrillic-overridden) source code equals
the default target `"en"` (both sides lowercased, so compared
case-insensitively), and otherwise exactly one console line is
produced. -/
theorem C6_console_projection (oracle : Oracle) (team sender message : String)
    (h1 : message ≠ "") (h2 : autoSkipRe message = false)
    (h3 : dotsOnly message = false) :
    (autoTranslateToConsole oracle team sender message).chatOuts = [] ∧
    (fromIsoOf (smartTranslate oracle message AUTO_TRANSLATE_TARGET).1 = "en" →
      (autoTranslateToConsole oracle team sender message).consoleTrans = none) ∧
    (fromIsoOf (smartTranslate oracle message AUTO_TRANSLATE_TARGET).1 ≠ "en" →
      (autoTranslateToConsole oracle team sender message).consoleTrans =
        some ⟨team, sender,
          fromIsoOf (smartTranslate oracle message AUTO_TRANSLATE_TARGET).1,
          (smartTranslate oracle message AUTO_TRANSLATE_TARGET).1.text⟩) := by
  have hT : jsToLower AUTO_TRANSLATE_TARGET = "en" := by decide
  refine ⟨autoTranslate_no_chat oracle team sender message, ?_, ?_⟩
  · intro he
    simp [autoTranslateToConsole, AUTO_TRANSLATE, h1, h2, h3, hT, he]
  · intro he
    simp [autoTranslateToConsole, AUTO_TRANSLATE, h1, h2, h3, hT, he]

/-- A concrete oracle that always detects French, for the C6 witness. -/
def oracle2 : Oracle := fun _ => some ⟨"hello", "fr"⟩

/-- Witness for C6: a French-detected message produces exactly the one
console line and no chat output. -/
theorem C6_console_projection_witness :
    (autoTranslateToConsole oracle2 "T" "Ann" "bonjour").chatOuts = [] ∧
    (autoTranslateToConsole oracle2 "T" "Ann" "bonjour").consoleTrans =
      some ⟨"T", "Ann", "fr", "hello"⟩ :=
  ⟨(C6_console_projection oracle2 "T" "Ann" "bonjour" (by decide) (by decide)
      (by decide)).1,
   (C6_console_projection oracle2 "T" "Ann" "bonjour" (by decide) (by decide)
      (by decide)).2.2 (by decide)⟩

/-- The first request of the resolver is always the auto-detection
request for the given text and target. -/
theorem smartTranslateWith_reqs_head (preferRu : Bool) (oracle : Oracle)
    (text toLang : String) :
    ((smartTranslateWith preferRu oracle text toLang).2).head? =
      some ⟨text, toLang, none⟩ := by
  simp only [smartTranslateWith]
  cases ho : oracle ⟨text, toLang, none⟩ with
  | none => simp
  | some r =>
    by_cases hc : (preferRu && hasCyrillic text && !(jsToLower r.iso == "ru")) = true
    · cases ho2 : oracle ⟨text, toLang, some "ru"⟩ <;> simp [hc, ho2]
    · simp [hc]

/-- The 2–5 character `[a-z_]` code consumed by the classifier regex
`^tm_[a-z_]{2,5}\b` (spec-side definition: the maximal run of class
characters after `tm_`, when the pattern matches). -/
def classifierTmCode (s : String) : Option String :=
  match s.data with
  | c0 :: c1 :: c2 :: rest =>
    if c0.toLower == 't' && c1.toLower == 'm' && c2 == '_' then
      let run := rest.takeWhile isTmClassChar
      if decide (2 ≤ run.length) && decide (run.length ≤ 5) &&
         (match rest.drop run.length with
          | [] => true
          | c :: _ => !(isWordChar c)) then some ⟨run⟩ else none
    else none
  | _ => none

/-- C10: for every accepted event recognized as `TranslateInline` with
non-empty text, the first translation request carries as target code
the entire first space-delimited token of the message with its leading
three characters removed and lowercased (`cmd.slice(3).toLowerCase()`);
on `"tm_de,x hello"` this token is `"de,x"`, which differs from the
2-character code `"de"` matched by the classifier. -/
theorem C10_tm_language_token (oracle : Oracle)
    (fuzz : String → String → Nat) (team player messageRaw : String)
    (st : Option LastMsg)
    (htm : tmRe (jsTrim messageRaw) = true)
    (htext : tmText (jsTrim messageRaw) ≠ "") :
    ((handleParsed oracle fuzz team player messageRaw st).2.1.reqs.head? =
      some ⟨tmText (jsTrim messageRaw), tmLang (jsTrim messageRaw), none⟩) ∧
    tmLang "tm_de,x hello" = "de,x" ∧
    classifierTmCode "tm_de,x hello" = some "de" ∧
    tmLang "tm_de,x hello" ≠ "de" := by
  refine ⟨?_, by decide, by decide, by decide⟩
  rw [handleParsed_snd,
    dispatch_tm _ _ _ _ _ _ _ (tmRe_imp_tlRe_false htm)
      (tmRe_imp_codeCapture_none htm) htm]
  have ht' : (tmText (jsTrim messageRaw) == "") = false := by
    cases hb : tmText (jsTrim messageRaw) == "" with
    | false => rfl
    | true => exact absurd (eq_of_beq hb) htext
  simp [handleTm, htm, ht', smartTranslate, smartTranslateWith_reqs_head]

/-- Witness for C10 at `"tm_de,x hello"`: the issued request targets
`"de,x"`, not the classifier-matched `"de"`. -/
theorem C10_tm_language_token_witness :
    (handleParsed oracle0 fuzz0 "CT" "Al" "tm_de,x hello" none).2.1.reqs.head? =
      some ⟨"hello", "de,x", none⟩ :=
  (C10_tm_language_token oracle0 fuzz0 "CT" "Al" "tm_de,x hello" none
    (by decide) (by decide)).1

/-- The running best of the fuzzy loop, as a recursion: keep the
incumbent unless a strictly larger score appears. -/
def pickBest (sc : Candidate → Nat) : Candidate → List Candidate → Candidate
  | b, [] => b
  | b, c :: cs => if sc b < sc c then pickBest sc c cs else pickBest sc b cs

/-- The fuzzy fold of `bestLangMatch`, started from an incumbent,
computes `pickBest`. -/
theorem bestFold_from_some (sc : Candidate → Nat) (cs : List Candidate) :
    ∀ b : Candidate,
    cs.foldl (fun best c =>
      let score := sc c
      match best with
      | none => some (⟨c.code, c.name, score⟩ : LangMatch)
      | some x => if x.score < score then some ⟨c.code, c.name, score⟩ else best)
      (some ⟨b.code, b.name, sc b⟩)
    = some ⟨(pickBest sc b cs).code, (pickBest sc b cs).name,
        sc (pickBest sc b cs)⟩ := by
  induction cs with
  | nil => intro b; simp [pickBest]
  | cons c cs ih =>
    intro b
    by_cases h : sc b < sc c
    · simp only [List.foldl_cons, h, if_true, pickBest]
      exact ih c
    · simp only [List.foldl_cons, h, if_false, pickBest]
      exact ih b

/-- Boolean-equality projection of a natural-number inequality. -/
theorem natBeq_false_of_ne {a b : Nat} (h : a ≠ b) : (a == b) = false := by
  cases hv : a == b with
  | true => exact absurd (eq_of_beq hv) h
  | false => rfl

/-- Boolean-equality projection of a natural-number equality. -/
theorem natBeq_true_of_eq {a b : Nat} (h : a = b) : (a == b) = true := by
  subst h; simp

/-- `find?` steps over a head satisfying the predicate (explicit
predicate, to steer rewriting). -/
theorem find?_cons_true {α : Type} (p : α → Bool) (a : α) (l : List α)
    (h : p a = true) : List.find? p (a :: l) = some a :=
  List.find?_cons_of_pos l h

/-- `find?` skips a head not satisfying the predicate (explicit
predicate, to steer rewriting). -/
theorem find?_cons_false {α : Type} (p : α → Bool) (a : α) (l : List α)
    (h : p a = false) : List.find? p (a :: l) = List.find? p l :=
  List.find?_cons_of_neg l (by simp [h])

/-- `pickBest` selects the first element of the list (incumbent first)
whose score attains the maximum score. -/
theorem pickBest_firstMax (sc : Candidate → Nat) (cs : List Candidate) :
    ∀ b : Candidate,
    (b :: cs).find? (fun c => sc c == listMax ((b :: cs).map sc)) =
      some (pickBest sc b cs) := by
  induction cs with
  | nil =>
    intro b
    simp [pickBest, listMax, List.find?]
  | cons c cs ih =>
    intro b
    by_cases h : sc b < sc c
    · have hM : listMax (List.map sc (b :: c :: cs)) =
          listMax (List.map sc (c :: cs)) := by
        simp only [List.map_cons, listMax, List.foldr_cons]
        exact max_eq_right (Nat.le_trans (Nat.le_of_lt h) (le_max_left _ _))
      rw [hM]
      have hcN : sc c ≤ listMax (List.map sc (c :: cs)) := by
        simp only [List.map_cons, listMax, List.foldr_cons]
        exact le_max_left _ _
      have hblt : sc b < listMax (List.map sc (c :: cs)) :=
        Nat.lt_of_lt_of_le h hcN
      have hbf : (sc b == listMax (List.map sc (c :: cs))) = false :=
        natBeq_false_of_ne (Nat.ne_of_lt hblt)
      rw [find?_cons_false (fun x => sc x == listMax (List.map sc (c :: cs)))
        b (c :: cs) hbf, ih c]
      simp [pickBest, h]
    · have hcb : sc c ≤ sc b := Nat.le_of_not_lt h
      have hM : listMax (List.map sc (b :: c :: cs)) =
          listMax (List.map sc (b :: cs)) := by
        simp only [List.map_cons, listMax, List.foldr_cons]
        rw [← max_assoc, max_eq_left hcb]
      rw [hM]
      have hble : sc b ≤ listMax (List.map sc (b :: cs)) := by
        simp only [List.map_cons, listMax, List.foldr_cons]
        exact le_max_left _ _
      specialize ih b
      by_cases hb : sc b = listMax (List.map sc (b :: cs))
      · have hbp : (sc b == listMax (List.map sc (b :: cs))) = true :=
          natBeq_true_of_eq hb
        rw [find?_cons_true (fun x => sc x == listMax (List.map sc (b :: cs)))
          b (c :: cs) hbp]
        rw [find?_cons_true (fun x => sc x == listMax (List.map sc (b :: cs)))
          b cs hbp] at ih
        rw [show pickBest sc b (c :: cs) = pickBest sc b cs from by
          simp [pickBest, h]]
        exact ih
      · have hblt : sc b < listMax (List.map sc (b :: cs)) :=
          Nat.lt_of_le_of_ne hble hb
        have hbf : (sc b == listMax (List.map sc (b :: cs))) = false :=
          natBeq_false_of_ne hb
        have hcf : (sc c == listMax (List.map sc (b :: cs))) = false :=
          natBeq_false_of_ne (Nat.ne_of_lt (Nat.lt_of_le_of_lt hcb hblt))
        rw [find?_cons_false (fun x => sc x == listMax (List.map sc (b :: cs)))
          b (c :: cs) hbf,
          find?_cons_false (fun x => sc x == listMax (List.map sc (b :: cs)))
          c cs hcf]
        rw [find?_cons_false (fun x => sc x == listMax (List.map sc (b :: cs)))
          b cs hbf] at ih
        rw [ih, show pickBest sc b (c :: cs) = pickBest sc b cs from by
          simp [pickBest, h]]

/-- The fuzzy fold of `bestLangMatch`, started from `none`, yields the
first list element attaining the maximum score (or `none` on the empty
list). -/
theorem bestFold_eq_find (sc : Candidate → Nat) (cs : List Candidate) :
    cs.foldl (fun best c =>
      let score := sc c
      match best with
      | none => some (⟨c.code, c.name, score⟩ : LangMatch)
      | some x => if x.score < score then some ⟨c.code, c.name, score⟩ else best)
      none
    = (cs.find? (fun c => sc c == listMax (cs.map sc))).map
        (fun c => (⟨c.code, c.name, sc c⟩ : LangMatch)) := by
  cases cs with
  | nil => rfl
  | cons c cs =>
    have h1 : List.foldl (fun best c =>
        let score := sc c
        match best with
        | none => some (⟨c.code, c.name, score⟩ : LangMatch)
        | some x => if x.score < score then some ⟨c.code, c.name, score⟩ else best)
        (some ⟨c.code, c.name, sc c⟩) cs
        = some ⟨(pickBest sc c cs).code, (pickBest sc c cs).name,
            sc (pickBest sc c cs)⟩ := bestFold_from_some sc cs c
    rw [List.foldl_cons, pickBest_firstMax sc cs c]
    exact h1

/-- C5: the Language Resolver agrees with its specification, for every
scorer and query: `None` on an empty normalized query; otherwise the
first catalog entry with an exact alias equal to the normalized query
wins with top score 100; otherwise each entry scores the maximum fuzzy
score over its aliases, the first entry in catalog order attaining the
maximum across entries wins, and any best score below 55 yields
`None`. -/
theorem C5_bestLangMatch_refines_spec (fuzz : String → String → Nat)
    (query : String) :
    bestLangMatch fuzz query = bestLangMatchSpec fuzz query := by
  simp only [bestLangMatch, bestLangMatchSpec]
  by_cases hq : (normalizeQueryLoose query == "") = true
  · simp [hq]
  · simp only [hq, if_false]
    cases hf : buildLangCandidates.find?
        (fun c => c.aliases.any (fun a => a == normalizeQueryLoose query)) with
    | some c => simp [hf]
    | none =>
      simp only [hf]
      rw [bestFold_eq_find (entryScore fuzz (normalizeQueryLoose query))
        buildLangCandidates]
      cases hf2 : buildLangCandidates.find?
          (fun c => entryScore fuzz (normalizeQueryLoose query) c ==
            listMax (buildLangCandidates.map
              (entryScore fuzz (normalizeQueryLoose query)))) with
      | none => simp [hf2]
      | some c' =>
        have hsc : entryScore fuzz (normalizeQueryLoose query) c' =
            listMax (buildLangCandidates.map
              (entryScore fuzz (normalizeQueryLoose query))) := by
          have := List.find?_some hf2
          exact eq_of_beq this
        simp [hf2, hsc]
